import Mathlib

/-!
Verification of the scope real-time video server core against its
natural-language specification.  The definitions below are a shallow
embedding of the Python source under src/: pure fragments become Lean
functions, stateful fragments become explicit state-passing functions,
Python dicts become association lists, Python exceptions become
Option/Except, and the numeric code is modelled over ℚ/ℤ/ℕ.
-/

namespace Scope

/-! ## Python numeric primitives

The source relies on Python's builtin round() (round to nearest, ties to
even) and int() (truncation toward zero).  The spec instead prescribes
plain rounding, floor(x + 0.5); that definition is kept separately under
a spec-derived name so the two can be compared. -/

/-- Python's builtin round() on a rational: nearest integer, ties to even. -/
def pyRound (q : ℚ) : ℤ :=
  if q - ⌊q⌋ < 1/2 then ⌊q⌋
  else if 1/2 < q - ⌊q⌋ then ⌊q⌋ + 1
  else if ⌊q⌋ % 2 = 0 then ⌊q⌋ else ⌊q⌋ + 1

/-- Python's builtin int() on a rational: truncation toward zero. -/
def pyInt (q : ℚ) : ℤ :=
  if 0 ≤ q then ⌊q⌋ else ⌈q⌉

/-- Modelled from the spec: the rounding function the spec prescribes in
section 4.3.1, plain rounding floor(x + 0.5).  Kept only to compare the
spec's words with the source's pyRound semantics. -/
def specPlainRound (q : ℚ) : ℤ := ⌊q + 1/2⌋

/-! ## Python dict model

Parameter bags (src/lib/frame_processor.py, src/lib/webrtc.py,
src/lib/pipeline_manager.py) are Python dicts with string keys.  They are
modelled as association lists without duplicate-key semantics concerns:
lookup takes the first binding, erase removes every binding of the key. -/

/-- Values stored in parameter bags. -/
inductive PyValue : Type
  | bool (b : Bool)
  | int (n : ℤ)
  | str (s : String)
deriving DecidableEq

/-- A Python dict with string keys, as an association list. -/
abbrev PyDict : Type := List (String × PyValue)

/-- Dict lookup, d.get(k) / d[k]. -/
def dictLookup (k : String) : PyDict → Option PyValue
  | [] => none
  | (k1, v) :: rest => if k1 = k then some v else dictLookup k rest

/-- Python membership test, k in d. -/
def dictContains (k : String) (d : PyDict) : Bool :=
  (dictLookup k d).isSome

/-- Remove every binding of a key. -/
def dictErase (k : String) (d : PyDict) : PyDict :=
  d.filter fun kv => kv.1 ≠ k

/-- Python d.pop(k, None): the removed value and the remaining dict. -/
def dictPop (k : String) (d : PyDict) : Option PyValue × PyDict :=
  (dictLookup k d, dictErase k d)

/-- Python dict equality: the same keys bound to the same values on both
sides (order-insensitive). -/
def dictEqB (a b : PyDict) : Bool :=
  (a.all fun kv => decide (dictLookup kv.1 b = some kv.2)) &&
  (b.all fun kv => decide (dictLookup kv.1 a = some kv.2))

/-! ## Python queue.Queue model

queue.Queue(maxsize) with put_nowait / get_nowait.  A maxsize of 0 means
unbounded, matching Python: put_nowait raises Full exactly when
0 < maxsize ≤ qsize. -/

/-- A Python queue.Queue: capacity and FIFO contents. -/
structure PyQueue (α : Type) where
  maxsize : ℕ
  items : List α
deriving DecidableEq

/-- put_nowait: none models a raised queue.Full. -/
def putNowait {α : Type} (q : PyQueue α) (x : α) : Option (PyQueue α) :=
  if 0 < q.maxsize ∧ q.maxsize ≤ q.items.length then none
  else some { q with items := q.items ++ [x] }

/-- get_nowait: none models a raised queue.Empty. -/
def getNowait {α : Type} (q : PyQueue α) : Option (α × PyQueue α) :=
  match q.items with
  | [] => none
  | x :: rest => some (x, { q with items := rest })

/-! ## FrameProcessor.prepare_chunk (src/lib/frame_processor.py lines 302-348)

step = len(buffer) / chunk_size computed with Python division, indices
round(i * step) with Python round.  The arithmetic is modelled exactly
over ℚ; the source evaluates it in IEEE doubles, which agree with the
exact value on the inputs used in the theorems below (dyadic steps). -/

/-- Indices chosen by prepare_chunk for a buffer of length n and chunk
size k: round(i * (n / k)) for i in range(k), with Python round. -/
def prepareChunkIndices (n k : ℕ) : List ℤ :=
  (List.range k).map fun i : ℕ => pyRound ((i : ℚ) * ((n : ℚ) / (k : ℚ)))

/-- The last sampled index, indices[-1] (0 when k = 0, which the worker
never requests). -/
def prepareChunkLastIdx (n k : ℕ) : ℕ :=
  ((prepareChunkIndices n k).getLast?.getD 0).toNat

/-- A deque popleft iterated n times. -/
def popleftN {α : Type} : ℕ → List α → List α
  | 0, l => l
  | n + 1, l => popleftN n l.tail

/-- prepare_chunk: extract the frames at the sampled indices and drop
every buffer entry up to and including the last sampled index.  Returns
(sampled frames, remaining buffer). -/
def prepareChunk {α : Type} [Inhabited α] (buffer : List α) (chunkSize : ℕ) :
    List α × List α :=
  let indices := prepareChunkIndices buffer.length chunkSize
  let videoFrames := indices.map fun i => buffer.getD i.toNat default
  (videoFrames, popleftN (prepareChunkLastIdx buffer.length chunkSize + 1) buffer)

/-! ## Output-queue resize (src/lib/frame_processor.py lines 267-291) -/

/-- Multiplier for resizing the output queue, line 16 of the source. -/
def OUTPUT_QUEUE_MAX_SIZE_FACTOR : ℕ := 3

/-- The transfer loop: get_nowait from the old queue, put_nowait into the
new one.  A Full raised by put_nowait here is uncaught (the except clause
only catches Empty), modelled by none. -/
def transferFrames {α : Type} : List α → PyQueue α → Option (PyQueue α)
  | [], q => some q
  | x :: rest, q => (putNowait q x).bind (transferFrames rest)

/-- The resize-and-enqueue tail of process_chunk: if the capacity is below
len(output) * 3, replace the queue by a fresh one of that capacity and
transfer the buffered frames; then put_nowait each output frame, dropping
it when the queue is full. -/
def enqueueOutputs {α : Type} (q : PyQueue α) (output : List α) :
    Option (PyQueue α) :=
  (if q.maxsize < output.length * OUTPUT_QUEUE_MAX_SIZE_FACTOR then
      transferFrames q.items ⟨output.length * OUTPUT_QUEUE_MAX_SIZE_FACTOR, []⟩
    else some q).map
    fun q0 => output.foldl (fun acc f => (putNowait acc f).getD acc) q0

/-! ## Parameter-bag flow of process_chunk (src/lib/frame_processor.py
lines 207-249) and pipelines/interface.py -/

/-- Keys that interface.py documents as used only by prepare() and not to
be passed to the pipeline call (lines 8-15 of pipelines/interface.py). -/
def PREPARE_ONLY_PARAMS : List String :=
  ["prompt_interpolation_method", "reset_cache", "manage_cache"]

/-- The keyword arguments the worker actually passes to the pipeline call
in process_chunk: the merged bag after popping only paused (line 223) and
reset_cache (line 232).  The same dict is also splatted into prepare. -/
def processCallKwargs (parameters : PyDict) : PyDict :=
  let afterPaused := (dictPop "paused" parameters).2
  (dictPop "reset_cache" afterPaused).2

/-! ## FrameProcessor stop / get / worker error dispatch
(src/lib/frame_processor.py lines 79-127 and 178-205) -/

/-- Errors the worker loop distinguishes.  torch.cuda.OutOfMemoryError is
the only non-recoverable kind (lines 357-366). -/
inductive WorkerError : Type
  | cudaOutOfMemory (msg : String)
  | pipelineNotAvailable (msg : String)
  | otherError (msg : String)
deriving DecidableEq

/-- FrameProcessor._is_recoverable. -/
def isRecoverable : WorkerError → Bool
  | .cudaOutOfMemory _ => false
  | _ => true

/-- Python str(e) on a worker error. -/
def errorStr : WorkerError → String
  | .cudaOutOfMemory m => m
  | .pipelineNotAvailable m => m
  | .otherError m => m

/-- The notification dict built in stop(): always a type key, plus an
error_message key when the message is truthy (non-empty). -/
def streamStoppedMessage (errorMessage : Option String) : PyDict :=
  [("type", .str "stream_stopped")] ++
    match errorMessage with
    | some m => if m = "" then [] else [("error_message", .str m)]
    | none => []

/-- FrameProcessor state visible to the claims: the running flag, the
output queue, the input frame buffer and the list of notifications
delivered through the notification callback so far. -/
structure FPState (α : Type) where
  running : Bool
  outputQueue : PyQueue α
  frameBuffer : List α
  notifications : List PyDict
deriving DecidableEq

/-- FrameProcessor.stop(error_message): early-return when not running,
otherwise clear running, drain the output queue, clear the buffer and
deliver exactly one stream_stopped notification. -/
def fpStop {α : Type} (st : FPState α) (errorMessage : Option String) :
    FPState α :=
  if st.running then
    { running := false,
      outputQueue := { st.outputQueue with items := [] },
      frameBuffer := [],
      notifications := st.notifications ++ [streamStoppedMessage errorMessage] }
  else st

/-- FrameProcessor.get(): None when stopped, otherwise a non-blocking pop
from the output queue. -/
def fpGet {α : Type} (st : FPState α) : Option α × FPState α :=
  if st.running then
    match getNowait st.outputQueue with
    | none => (none, st)
    | some (x, q) => (some x, { st with outputQueue := q })
  else (none, st)

/-- Whether the worker loop continues after handling an error. -/
inductive LoopDirective : Type
  | continueLoop
  | breakLoop
deriving DecidableEq

/-- The error dispatch of worker_loop (lines 185-204): pipeline
unavailability flushes the buffer and continues; recoverable errors are
logged and the loop continues; a non-recoverable error stops the frame
processor with str(e) and breaks. -/
def workerHandleError {α : Type} (st : FPState α) (e : WorkerError) :
    FPState α × LoopDirective :=
  match e with
  | .pipelineNotAvailable _ => ({ st with frameBuffer := [] }, .continueLoop)
  | e =>
    if isRecoverable e then (st, .continueLoop)
    else (fpStop st (some (errorStr e)), .breakLoop)

/-! ## FrameProcessor.update_parameters (src/lib/frame_processor.py
lines 168-176)

The Python function returns False when the queue is full and otherwise
falls off the end, returning None.  The return value is modelled as
Option Bool: none is Python None, some b is a Bool. -/

/-- update_parameters: enqueue the bag, or return False when the
parameter queue is full. -/
def updateParameters (q : PyQueue PyDict) (parameters : PyDict) :
    Option Bool × PyQueue PyDict :=
  match putNowait q parameters with
  | none => (some false, q)
  | some q2 => (none, q2)

/-- Python truthiness of an Option Bool value: None and False are both
falsy. -/
def pyTruthy : Option Bool → Bool
  | none => false
  | some b => b

/-! ## FPS tracker (src/lib/frame_processor.py lines 18-21, 56-66,
129-166), modelled over ℚ -/

/-- Minimum published FPS, line 19. -/
def MIN_FPS : ℚ := 1

/-- Maximum published FPS, line 20. -/
def MAX_FPS : ℚ := 60

/-- Default published FPS, line 21. -/
def DEFAULT_FPS : ℚ := 30

/-- The FPS-tracking fields of FrameProcessor: the deque(maxlen=2) of
processing-time-per-frame samples, the last publish time and the
published FPS. -/
structure FpsTracker : Type where
  samples : List ℚ
  lastFpsUpdate : ℚ
  currentPipelineFps : ℚ
deriving DecidableEq

/-- FrameProcessor.__init__: empty deque, publish clock at construction
time, default FPS. -/
def initFpsTracker (t0 : ℚ) : FpsTracker :=
  ⟨[], t0, DEFAULT_FPS⟩

/-- Append on a deque(maxlen=2): keep the last two elements. -/
def dequeAppendMax2 (xs : List ℚ) (x : ℚ) : List ℚ :=
  let ys := xs ++ [x]
  ys.drop (ys.length - 2)

/-- FrameProcessor._calculate_pipeline_fps.  t1 is the time.time() used
for processing_time, t2 the later time.time() used as current_time; the
publish interval is the fixed 0.5 s of __init__.  The estimated FPS is
1 / (mean of the stored samples) when that mean is positive (falling back
to the current FPS otherwise), clamped to [MIN_FPS, MAX_FPS]. -/
def calculatePipelineFps (st : FpsTracker) (startTime t1 t2 : ℚ)
    (numFrames : ℤ) : FpsTracker :=
  if t1 - startTime ≤ 0 ∨ numFrames ≤ 0 then st
  else if 1/2 ≤ t2 - st.lastFpsUpdate then
    if 1 ≤ (dequeAppendMax2 st.samples
        ((t1 - startTime) / (numFrames : ℚ))).length then
      ⟨dequeAppendMax2 st.samples ((t1 - startTime) / (numFrames : ℚ)), t2,
        max MIN_FPS (min MAX_FPS
          (if 0 < (dequeAppendMax2 st.samples
                ((t1 - startTime) / (numFrames : ℚ))).sum /
              ((dequeAppendMax2 st.samples
                ((t1 - startTime) / (numFrames : ℚ))).length : ℚ) then
            1 / ((dequeAppendMax2 st.samples
                ((t1 - startTime) / (numFrames : ℚ))).sum /
              ((dequeAppendMax2 st.samples
                ((t1 - startTime) / (numFrames : ℚ))).length : ℚ))
          else st.currentPipelineFps))⟩
    else ⟨dequeAppendMax2 st.samples ((t1 - startTime) / (numFrames : ℚ)),
          t2, st.currentPipelineFps⟩
  else { st with samples :=
    dequeAppendMax2 st.samples ((t1 - startTime) / (numFrames : ℚ)) }

/-- FrameProcessor.get_current_pipeline_fps. -/
def getCurrentPipelineFps (st : FpsTracker) : ℚ :=
  st.currentPipelineFps

/-- One observed pipeline call, as fed to _calculate_pipeline_fps. -/
structure FpsSample : Type where
  startTime : ℚ
  t1 : ℚ
  t2 : ℚ
  numFrames : ℤ

/-- The tracker state after a sequence of worker iterations. -/
def runFpsTracker (t0 : ℚ) (events : List FpsSample) : FpsTracker :=
  events.foldl
    (fun st e => calculatePipelineFps st e.startTime e.t1 e.t2 e.numFrames)
    (initFpsTracker t0)

/-! ## Pipeline manager (src/lib/pipeline_manager.py) -/

/-- PipelineStatus enum, lines 23-29. -/
inductive PipelineStatus : Type
  | notLoaded
  | loading
  | loaded
  | error
deriving DecidableEq

/-- The fields of PipelineManager guarded by its lock.  The pipeline
instance type is abstract. -/
structure PMState (π : Type) : Type where
  status : PipelineStatus
  pipeline : Option π
  pipelineId : Option String
  loadParams : Option PyDict
  errorMessage : Option String
deriving DecidableEq

/-- PipelineManager._unload_pipeline_unsafe: reset every field to the
initial state (resource release is outside the state model). -/
def unloadPipelineNoLock {π : Type} (_st : PMState π) : PMState π :=
  { status := .notLoaded, pipeline := none, pipelineId := none,
    loadParams := none, errorMessage := none }

/-- PipelineManager.is_loaded. -/
def pmIsLoaded {π : Type} (st : PMState π) : Bool :=
  st.status = .loaded

/-- PipelineManager._load_pipeline_sync_wrapper (lines 105-167).
loadImpl abstracts _load_pipeline_implementation: ok is a constructed
pipeline, error the message of a raised exception.  envDefault is the
PIPELINE environment fallback of line 142.  Returns the Python boolean
result and the state after the call. -/
def loadPipelineSyncWrapper {π : Type}
    (loadImpl : String → Option PyDict → Except String π)
    (envDefault : String) (st : PMState π)
    (pipelineId : Option String) (loadParams : Option PyDict) :
    Bool × PMState π :=
  if st.status = .loaded ∧ st.pipelineId = pipelineId ∧
      dictEqB (st.loadParams.getD []) (loadParams.getD []) then
    (true, st)
  else
    let st1 :=
      if st.status = .loaded ∧
          (st.pipelineId ≠ pipelineId ∨
            ¬ dictEqB (st.loadParams.getD []) (loadParams.getD [])) then
        unloadPipelineNoLock st
      else st
    if st1.status = .loading then (false, st1)
    else
      match loadImpl (pipelineId.getD envDefault) loadParams with
      | .ok p =>
        (true, { status := .loaded, pipeline := some p,
                 pipelineId := some (pipelineId.getD envDefault),
                 loadParams := loadParams, errorMessage := none })
      | .error msg =>
        (false, { status := .error, pipeline := none, pipelineId := none,
                  loadParams := none,
                  errorMessage :=
                    some ("Failed to load pipeline " ++
                      pipelineId.getD envDefault ++ ": " ++ msg) })

/-! ## WebRTC offer endpoint (src/app.py lines 276-295)

The handler raises HTTPException(400) inside its own try block whose
except Exception clause re-raises HTTPException(500, str(e)); fastapi's
HTTPException derives from Exception, so the 400 is caught there. -/

/-- A fastapi/starlette HTTPException. -/
structure HTTPExc : Type where
  status : ℕ
  detail : String
deriving DecidableEq

/-- Python str() of a starlette HTTPException: "status: detail". -/
def httpExcStr (e : HTTPExc) : String :=
  toString e.status ++ ": " ++ e.detail

/-- The try-block body of handle_webrtc_offer: raise HTTPException(400)
when the manager is not loaded (before any session is created), otherwise
let handle_offer register one session and produce the answer. -/
def handleWebrtcOfferBody {π : Type} (st : PMState π) (sessions : ℕ) :
    Except HTTPExc Unit × ℕ :=
  if pmIsLoaded st then (.ok (), sessions + 1)
  else (.error ⟨400, "Pipeline not loaded. Please load pipeline first."⟩,
        sessions)

/-- handle_webrtc_offer as a whole: the except Exception clause also
catches the handler's own HTTPException (fastapi's HTTPException derives
from Exception) and re-raises HTTPException(500, str(e)). -/
def handleWebrtcOffer {π : Type} (st : PMState π) (sessions : ℕ) :
    Except HTTPExc Unit × ℕ :=
  match handleWebrtcOfferBody st sessions with
  | (.error e, s) => (.error ⟨500, httpExcStr e⟩, s)
  | (.ok a, s) => (.ok a, s)

/-! ## Egress track (src/lib/tracks.py) and the data-channel message
handler (src/lib/webrtc.py lines 223-247) -/

/-- Every attribute bound on a VideoProcessingTrack instance: the class
body and __init__ of src/lib/tracks.py (kind plus the instance fields and
methods), the attributes set later by its own methods (track, timestamp,
start), and the aiortc MediaStreamTrack base interface (id, readyState,
and the base stop/recv the subclass overrides).  No pause attribute is
ever bound. -/
def videoProcessingTrackAttrs : List String :=
  ["kind", "pipeline_manager", "initial_parameters", "notification_callback",
   "fps", "frame_ptime", "frame_timestamps", "last_frame_time",
   "fps_update_interval", "last_fps_update", "min_fps", "max_fps",
   "frame_processor", "input_task", "input_task_running", "track",
   "timestamp", "start",
   "_calculate_dynamic_fps", "_update_fps_if_needed", "get_current_fps",
   "input_loop", "next_timestamp", "initialize_output_processing",
   "initialize_input_processing", "recv", "stop", "id", "readyState"]

/-- Observable outcome of on_data_channel_message on parsed JSON data. -/
inductive DataChannelOutcome : Type
  | applied (pauseArg : Option PyValue) (forwarded : PyDict)
  | errorCaught (excName : String)
deriving DecidableEq

/-- on_data_channel_message after a successful json.loads: when the bag
contains paused, the handler first calls session.video_track.pause(...);
attribute lookup on a name the track does not bind raises AttributeError,
which the except Exception clause catches after skipping the
update_parameters call.  Otherwise the bag is forwarded to the frame
processor. -/
def onDataChannelMessage (data : PyDict) : DataChannelOutcome :=
  if dictContains "paused" data then
    if videoProcessingTrackAttrs.contains "pause" then
      .applied (dictLookup "paused" data) data
    else .errorCaught "AttributeError"
  else .applied none data

/-- Outcome of one iteration of the VideoProcessingTrack.recv loop
(lines 148-180): emit the popped queue head, sleep 10 ms and retry on an
empty queue, or raise once the input task has stopped. -/
inductive RecvOutcome (α : Type) : Type
  | emit (frame : α) (rest : List α)
  | waitRetry
  | trackStopped
deriving DecidableEq

/-- One iteration of recv: the emitted frame, when there is one, is
always the head of the output queue; the track state holds no pause flag
and no cached last frame (see videoProcessingTrackAttrs). -/
def recvStep {α : Type} (inputTaskRunning : Bool) (outputQueue : List α) :
    RecvOutcome α :=
  if inputTaskRunning then
    match outputQueue with
    | [] => .waitRetry
    | f :: rest => .emit f rest
  else .trackStopped

/-! ## Egress media clock (src/lib/tracks.py lines 117-132) -/

/-- aiortc VIDEO_CLOCK_RATE. -/
def VIDEO_CLOCK_RATE : ℚ := 90000

/-- The timestamp attributes of the track once set by the first
next_timestamp call. -/
structure TrackClock : Type where
  start : ℚ
  timestamp : ℤ
deriving DecidableEq

/-- VideoProcessingTrack.next_timestamp: on the first call (no timestamp
attribute yet) set start to now and the timestamp to 0 with no sleep;
afterwards advance the timestamp by int(frame_ptime * VIDEO_CLOCK_RATE)
and sleep for start + timestamp / VIDEO_CLOCK_RATE - now when that is
positive.  Returns (timestamp, sleep duration, updated clock). -/
def nextTimestamp (framePtime now : ℚ) :
    Option TrackClock → ℤ × ℚ × TrackClock
  | none => (0, 0, ⟨now, 0⟩)
  | some c =>
    let ts := c.timestamp + pyInt (framePtime * VIDEO_CLOCK_RATE)
    let wait := c.start + (ts : ℚ) / VIDEO_CLOCK_RATE - now
    (ts, if 0 < wait then wait else 0, ⟨c.start, ts⟩)

/-! ## Helper lemmas about the Python primitives -/

theorem pyRound_intCast (n : ℤ) : pyRound (n : ℚ) = n := by
  unfold pyRound
  rw [Int.floor_intCast]
  rw [if_pos]
  norm_num

theorem floor_le_pyRound (q : ℚ) : ⌊q⌋ ≤ pyRound q := by
  unfold pyRound
  split_ifs <;> omega

theorem pyRound_le_floor_add_one (q : ℚ) : pyRound q ≤ ⌊q⌋ + 1 := by
  unfold pyRound
  split_ifs <;> omega

theorem pyRound_nonneg {q : ℚ} (h : 0 ≤ q) : 0 ≤ pyRound q :=
  le_trans (Int.floor_nonneg.mpr h) (floor_le_pyRound q)

theorem pyRound_le_of_le_intCast {q : ℚ} {n : ℤ} (h : q ≤ (n : ℚ)) :
    pyRound q ≤ n := by
  have hfl : ⌊q⌋ ≤ n := by
    have := Int.floor_mono h
    rwa [Int.floor_intCast] at this
  rcases eq_or_lt_of_le hfl with heq | hlt
  · have hq : q = (n : ℚ) := le_antisymm h (by rw [← heq]; exact Int.floor_le q)
    rw [hq, pyRound_intCast]
  · have := pyRound_le_floor_add_one q
    omega

theorem pyRound_mono {p q : ℚ} (h : p ≤ q) : pyRound p ≤ pyRound q := by
  rcases eq_or_lt_of_le (Int.floor_mono h) with hf | hf
  · have hrs : p - (⌊q⌋ : ℚ) ≤ q - (⌊q⌋ : ℚ) := by linarith
    unfold pyRound
    rw [hf]
    split_ifs <;> first | omega | (exfalso; linarith)
  · calc pyRound p ≤ ⌊p⌋ + 1 := pyRound_le_floor_add_one p
    _ ≤ ⌊q⌋ := by omega
    _ ≤ pyRound q := floor_le_pyRound q

theorem pyRound_eq_specPlainRound {q : ℚ} (h : q - ⌊q⌋ ≠ 1/2) :
    pyRound q = specPlainRound q := by
  have h0 : (0 : ℚ) ≤ q - ⌊q⌋ := by
    have := Int.floor_le q
    linarith
  have h1 : q - ⌊q⌋ < 1 := by
    have := Int.lt_floor_add_one q
    push_cast at this
    linarith
  unfold pyRound specPlainRound
  rcases lt_or_gt_of_ne h with hlt | hgt
  · rw [if_pos hlt]
    symm
    rw [Int.floor_eq_iff]
    constructor
    · have := Int.floor_le q
      linarith
    · linarith
  · rw [if_neg (by linarith), if_pos hgt]
    symm
    rw [Int.floor_eq_iff]
    constructor
    · push_cast
      linarith
    · push_cast
      linarith

theorem pyRound_tie_even {q : ℚ} (h : q - ⌊q⌋ = 1/2) : pyRound q % 2 = 0 := by
  unfold pyRound
  rw [if_neg (by rw [h]; norm_num), if_neg (by rw [h]; norm_num)]
  split_ifs with he
  · exact he
  · omega

theorem popleftN_eq_drop {α : Type} (n : ℕ) (l : List α) :
    popleftN n l = l.drop n := by
  induction n generalizing l with
  | zero => rfl
  | succ m ih =>
    rw [popleftN, ih, ← List.drop_one, List.drop_drop, Nat.add_comm]

theorem prepareChunk_index_bounds {n k : ℕ} (hk : 1 ≤ k) (hkn : k ≤ n)
    {i : ℕ} (hi : i < k) :
    0 ≤ pyRound ((i : ℚ) * ((n : ℚ) / (k : ℚ))) ∧
      pyRound ((i : ℚ) * ((n : ℚ) / (k : ℚ))) < (n : ℤ) := by
  have hk0 : (0 : ℚ) < (k : ℚ) := by exact_mod_cast hk
  have hs1 : (1 : ℚ) ≤ (n : ℚ) / (k : ℚ) :=
    (one_le_div hk0).mpr (by exact_mod_cast hkn)
  have hs0 : (0 : ℚ) ≤ (n : ℚ) / (k : ℚ) := by linarith
  have hq0 : (0 : ℚ) ≤ (i : ℚ) * ((n : ℚ) / (k : ℚ)) :=
    mul_nonneg (by positivity) hs0
  have hik : (i : ℚ) ≤ (k : ℚ) - 1 := by
    have hik1 : ((i + 1 : ℕ) : ℚ) ≤ (k : ℚ) := by exact_mod_cast hi
    push_cast at hik1
    linarith
  have hks : (k : ℚ) * ((n : ℚ) / (k : ℚ)) = (n : ℚ) :=
    mul_div_cancel₀ _ (ne_of_gt hk0)
  have hn1 : 1 ≤ n := le_trans hk hkn
  have hub : (i : ℚ) * ((n : ℚ) / (k : ℚ)) ≤ (((n : ℤ) - 1 : ℤ) : ℚ) := by
    have step1 : (i : ℚ) * ((n : ℚ) / (k : ℚ)) ≤
        ((k : ℚ) - 1) * ((n : ℚ) / (k : ℚ)) :=
      mul_le_mul_of_nonneg_right hik hs0
    have step2 : ((k : ℚ) - 1) * ((n : ℚ) / (k : ℚ)) =
        (n : ℚ) - (n : ℚ) / (k : ℚ) := by
      rw [sub_mul, one_mul, hks]
    push_cast
    rw [step2] at step1
    linarith
  refine ⟨pyRound_nonneg hq0, ?_⟩
  have := pyRound_le_of_le_intCast hub
  omega

theorem prepareChunkIndices_getLast {n k : ℕ} (hk : 1 ≤ k) :
    (prepareChunkIndices n k).getLast?.getD 0 =
      pyRound (((k - 1 : ℕ) : ℚ) * ((n : ℚ) / (k : ℚ))) := by
  obtain ⟨m, rfl⟩ : ∃ m, k = m + 1 := ⟨k - 1, by omega⟩
  unfold prepareChunkIndices
  rw [List.range_succ, List.map_append]
  simp

theorem prepareChunkIndices_pairwise (n k : ℕ) :
    List.Pairwise (· ≤ ·) (prepareChunkIndices n k) := by
  unfold prepareChunkIndices
  have hs0 : (0 : ℚ) ≤ (n : ℚ) / (k : ℚ) := by positivity
  refine List.Pairwise.map _ ?_ (List.pairwise_lt_range k)
  intro a b hab
  exact pyRound_mono
    (mul_le_mul_of_nonneg_right (by exact_mod_cast le_of_lt hab) hs0)

/-- C3 (amended): prepare_chunk with buffer length N >= K >= 1 selects the
frames at indices round(i * N/K) for i in [0, K), where round is Python's
round-to-nearest with ties to even (which agrees with plain rounding
floor(x + 0.5) except at exact odd-half ties, where it picks the even
neighbour); the indices are nondecreasing and in range, the frames are
returned in index order, and afterwards the buffer is the original suffix
from lastIndex + 1 on, of length N - (lastIndex + 1). -/
theorem c3_uniform_sampling (buffer : List ℕ) (k : ℕ)
    (hk : 1 ≤ k) (hkn : k ≤ buffer.length) :
    prepareChunkIndices buffer.length k =
      (List.range k).map
        (fun i : ℕ => pyRound ((i : ℚ) * ((buffer.length : ℚ) / (k : ℚ)))) ∧
    (∀ q : ℚ, q - ⌊q⌋ ≠ 1/2 → pyRound q = specPlainRound q) ∧
    (∀ q : ℚ, q - ⌊q⌋ = 1/2 → pyRound q % 2 = 0) ∧
    List.Pairwise (· ≤ ·) (prepareChunkIndices buffer.length k) ∧
    (∀ j ∈ prepareChunkIndices buffer.length k,
      0 ≤ j ∧ j < (buffer.length : ℤ)) ∧
    (prepareChunk buffer k).1 =
      (prepareChunkIndices buffer.length k).map
        (fun i => buffer.getD i.toNat 0) ∧
    prepareChunkLastIdx buffer.length k + 1 ≤ buffer.length ∧
    (prepareChunk buffer k).2 =
      buffer.drop (prepareChunkLastIdx buffer.length k + 1) ∧
    (prepareChunk buffer k).2.length =
      buffer.length - (prepareChunkLastIdx buffer.length k + 1) := by
  have hbounds : ∀ j ∈ prepareChunkIndices buffer.length k,
      0 ≤ j ∧ j < (buffer.length : ℤ) := by
    intro j hj
    unfold prepareChunkIndices at hj
    obtain ⟨i, hi, rfl⟩ := List.mem_map.mp hj
    exact prepareChunk_index_bounds hk hkn (List.mem_range.mp hi)
  have hlast : prepareChunkLastIdx buffer.length k + 1 ≤ buffer.length := by
    unfold prepareChunkLastIdx
    rw [prepareChunkIndices_getLast hk]
    have hb := prepareChunk_index_bounds (n := buffer.length) hk hkn
      (i := k - 1) (by omega)
    omega
  have hdrop : (prepareChunk buffer k).2 =
      buffer.drop (prepareChunkLastIdx buffer.length k + 1) := by
    show popleftN (prepareChunkLastIdx buffer.length k + 1) buffer = _
    exact popleftN_eq_drop _ buffer
  refine ⟨rfl, fun q h => pyRound_eq_specPlainRound h,
    fun q h => pyRound_tie_even h,
    prepareChunkIndices_pairwise buffer.length k,
    hbounds, rfl, hlast, hdrop, ?_⟩
  rw [hdrop]
  exact List.length_drop _ _

/-- C3 witness: the amended theorem applied to the one-element buffer with
chunk size 1. -/
theorem c3_uniform_sampling_witness :
    1 ≤ ([0] : List ℕ).length ∧
      (prepareChunk ([0] : List ℕ) 1).2.length =
        ([0] : List ℕ).length -
          (prepareChunkLastIdx ([0] : List ℕ).length 1 + 1) :=
  ⟨by simp, (c3_uniform_sampling [0] 1 (le_refl 1) (by simp)).2.2.2.2.2.2.2.2⟩

/-- C3 counterexample: with N = 5 and K = 2 the source's Python round
(ties to even, and the step 5/2 is exact in floating point) picks indices
[0, 2], while the claim's plain rounding floor(i * N/K + 0.5) demands
[0, 3]; the buffer keeps 2 frames, not 1. -/
theorem c3_counterexample :
    prepareChunkIndices 5 2 = [0, 2] ∧
    (List.range 2).map
      (fun i : ℕ => specPlainRound ((i : ℚ) * ((5 : ℚ) / (2 : ℚ)))) = [0, 3] ∧
    prepareChunk ([0, 1, 2, 3, 4] : List ℕ) 2 = ([0, 2], [3, 4]) ∧
    prepareChunkIndices 5 2 ≠ [0, 3] := by
  have hpy0 : pyRound (0 : ℚ) = 0 := by
    unfold pyRound
    norm_num
  have hfloor : ⌊(5 : ℚ) / 2⌋ = 2 := by norm_num
  have hpy : pyRound ((5 : ℚ) / 2) = 2 := by
    unfold pyRound
    rw [hfloor]
    norm_num
  have h1 : prepareChunkIndices 5 2 = [0, 2] := by
    unfold prepareChunkIndices
    rw [List.range_succ, List.range_succ, List.range_zero]
    simp only [List.map_append, List.map_cons, List.map_nil, List.nil_append]
    norm_num [hpy0, hpy]
  have h2 : (List.range 2).map
      (fun i : ℕ => specPlainRound ((i : ℚ) * ((5 : ℚ) / (2 : ℚ)))) = [0, 3] := by
    unfold specPlainRound
    norm_num [List.range_succ]
  refine ⟨h1, h2, ?_, by rw [h1]; decide⟩
  unfold prepareChunk prepareChunkLastIdx
  simp only [List.length_cons, List.length_nil]
  rw [show ((0 : ℕ) + 1 + 1 + 1 + 1 + 1 : ℕ) = 5 from rfl] at *
  rw [h1]
  simp [popleftN, List.getD]

theorem transferFrames_eq {α : Type} (l : List α) (q : PyQueue α)
    (h : q.items.length + l.length ≤ q.maxsize) :
    transferFrames l q = some { q with items := q.items ++ l } := by
  induction l generalizing q with
  | nil => simp [transferFrames]
  | cons x rest ih =>
    have hput : putNowait q x = some { q with items := q.items ++ [x] } := by
      unfold putNowait
      rw [if_neg]
      simp only [List.length_cons] at h
      omega
    rw [transferFrames, hput]
    simp only [Option.bind_eq_bind, Option.some_bind]
    rw [ih { q with items := q.items ++ [x] }]
    · simp [List.append_assoc]
    · simp only [List.length_append, List.length_cons, List.length_nil] at h ⊢
      omega

theorem foldl_putNowait_drop {α : Type} (output : List α) (q : PyQueue α)
    (hpos : 0 < q.maxsize) :
    output.foldl (fun acc f => (putNowait acc f).getD acc) q =
      { q with items :=
          q.items ++ output.take (q.maxsize - q.items.length) } := by
  induction output generalizing q with
  | nil => simp
  | cons x rest ih =>
    rw [List.foldl_cons]
    by_cases hlen : q.items.length < q.maxsize
    · have hput : putNowait q x = some { q with items := q.items ++ [x] } := by
        unfold putNowait
        rw [if_neg]
        omega
      rw [hput]
      simp only [Option.getD_some]
      rw [ih { q with items := q.items ++ [x] } hpos]
      have harith : q.maxsize - q.items.length =
          (q.maxsize - (q.items.length + 1)) + 1 := by omega
      rw [harith, List.take_succ_cons]
      simp [List.append_assoc]
    · have hput : putNowait q x = none := by
        unfold putNowait
        rw [if_pos ⟨hpos, by omega⟩]
      rw [hput]
      simp only [Option.getD_none]
      rw [ih q hpos]
      have harith : q.maxsize - q.items.length = 0 := by omega
      rw [harith, List.take_zero]
      simp

/-- C6 (amended): when a pipeline call produces M frames and the output
queue's capacity C is below 3M, the queue is replaced by one of capacity
exactly 3M; the previously queued frames survive in their original order,
followed by the first 3M - len(queued) of the new frames (put_nowait drops
the rest when the new queue fills, which cannot happen when at most 2M
frames were queued). -/
theorem c6_output_queue_resize {α : Type} (q : PyQueue α) (output : List α)
    (hinv : q.items.length ≤ q.maxsize)
    (hC : q.maxsize < output.length * OUTPUT_QUEUE_MAX_SIZE_FACTOR) :
    enqueueOutputs q output =
      some { maxsize := output.length * OUTPUT_QUEUE_MAX_SIZE_FACTOR,
             items := q.items ++
               output.take
                 (output.length * OUTPUT_QUEUE_MAX_SIZE_FACTOR -
                   q.items.length) } ∧
    (q.items.length ≤ 2 * output.length →
      enqueueOutputs q output =
        some { maxsize := output.length * OUTPUT_QUEUE_MAX_SIZE_FACTOR,
               items := q.items ++ output }) := by
  have htrans : transferFrames q.items
      (⟨output.length * OUTPUT_QUEUE_MAX_SIZE_FACTOR, []⟩ : PyQueue α) =
      some ⟨output.length * OUTPUT_QUEUE_MAX_SIZE_FACTOR, q.items⟩ := by
    rw [transferFrames_eq]
    · simp
    · simpa using le_of_lt (lt_of_le_of_lt hinv hC)
  have hmain : enqueueOutputs q output =
      some { maxsize := output.length * OUTPUT_QUEUE_MAX_SIZE_FACTOR,
             items := q.items ++
               output.take
                 (output.length * OUTPUT_QUEUE_MAX_SIZE_FACTOR -
                   q.items.length) } := by
    unfold enqueueOutputs
    rw [if_pos hC, htrans]
    simp only [Option.map_some']
    rw [foldl_putNowait_drop _ _
      (lt_of_le_of_lt (Nat.zero_le q.maxsize) hC)]
  refine ⟨hmain, fun hfit => ?_⟩
  rw [hmain]
  have : output.take
      (output.length * OUTPUT_QUEUE_MAX_SIZE_FACTOR - q.items.length) =
      output := by
    apply List.take_of_length_le
    unfold OUTPUT_QUEUE_MAX_SIZE_FACTOR
    omega
  rw [this]

/-- C6 witness: a queue of capacity 2 holding one frame receives one new
frame; the capacity becomes 3 and both frames are kept in order. -/
theorem c6_output_queue_resize_witness :
    (⟨2, [7]⟩ : PyQueue ℕ).items.length ≤ (⟨2, [7]⟩ : PyQueue ℕ).maxsize ∧
      enqueueOutputs (⟨2, [7]⟩ : PyQueue ℕ) [9] =
        some ⟨1 * OUTPUT_QUEUE_MAX_SIZE_FACTOR,
              [7] ++ [9].take (1 * OUTPUT_QUEUE_MAX_SIZE_FACTOR - 1)⟩ :=
  ⟨by decide,
    (c6_output_queue_resize (⟨2, [7]⟩ : PyQueue ℕ) [9] (by decide)
      (by decide)).1⟩

/-- C6 counterexample: a full queue of capacity 5 receives 2 new frames;
the capacity becomes 6, but only the first new frame fits, so the claimed
dequeue sequence (all old frames followed by both new frames) is wrong. -/
theorem c6_counterexample :
    enqueueOutputs (⟨5, [0, 1, 2, 3, 4]⟩ : PyQueue ℕ) [10, 11] =
      some ⟨6, [0, 1, 2, 3, 4, 10]⟩ ∧
    (enqueueOutputs (⟨5, [0, 1, 2, 3, 4]⟩ : PyQueue ℕ) [10, 11] ≠
      some ⟨6, [0, 1, 2, 3, 4] ++ [10, 11]⟩) := by
  constructor
  · decide
  · decide

/-- C5: when the pipeline call raises a non-recoverable (device
out-of-memory) error while the processor is running, the worker stops the
frame processor with that error message and breaks out of its loop;
exactly one stream_stopped notification carrying the message is delivered
(a repeated stop is a no-op), and every subsequent get() returns None. -/
theorem c5_fatal_error_stops {α : Type} (st : FPState α) (m : String)
    (hrun : st.running = true) (hm : m ≠ "") :
    (workerHandleError st (.cudaOutOfMemory m)).2 = .breakLoop ∧
    (workerHandleError st (.cudaOutOfMemory m)).1.running = false ∧
    (workerHandleError st (.cudaOutOfMemory m)).1.notifications =
      st.notifications ++
        [[("type", PyValue.str "stream_stopped"),
          ("error_message", PyValue.str m)]] ∧
    (fpGet (workerHandleError st (.cudaOutOfMemory m)).1).1 = none ∧
    (∀ st2 : FPState α, st2.running = false →
      (fpGet st2).1 = none ∧ (fpGet st2).2 = st2) ∧
    (∀ err2, fpStop (workerHandleError st (.cudaOutOfMemory m)).1 err2 =
      (workerHandleError st (.cudaOutOfMemory m)).1) := by
  have hmsg : streamStoppedMessage (some m) =
      [("type", PyValue.str "stream_stopped"),
       ("error_message", PyValue.str m)] := by
    unfold streamStoppedMessage
    simp [hm]
  have hstep : workerHandleError st (.cudaOutOfMemory m) =
      (fpStop st (some m), .breakLoop) := rfl
  have hstop : fpStop st (some m) =
      ⟨false, { st.outputQueue with items := [] }, [],
        st.notifications ++ [streamStoppedMessage (some m)]⟩ := by
    unfold fpStop
    rw [if_pos hrun]
  have hgetStopped : ∀ st2 : FPState α, st2.running = false →
      (fpGet st2).1 = none ∧ (fpGet st2).2 = st2 := by
    intro st2 h2
    unfold fpGet
    rw [h2]
    exact ⟨rfl, rfl⟩
  refine ⟨rfl, ?_, ?_, ?_, hgetStopped, ?_⟩
  · rw [hstep, hstop]
  · rw [hstep, hstop, hmsg]
  · exact (hgetStopped _ (by rw [hstep, hstop])).1
  · intro err2
    rw [hstep, hstop]
    unfold fpStop
    rw [if_neg (by simp)]

/-- C5 witness: the theorem applied to a concrete running processor and a
concrete out-of-memory message. -/
theorem c5_fatal_error_stops_witness :
    (⟨true, ⟨8, []⟩, [], []⟩ : FPState ℕ).running = true ∧
    ("CUDA out of memory" : String) ≠ "" ∧
    (workerHandleError (⟨true, ⟨8, []⟩, [], []⟩ : FPState ℕ)
        (.cudaOutOfMemory "CUDA out of memory")).1.notifications =
      ([] : List PyDict) ++
        [[("type", PyValue.str "stream_stopped"),
          ("error_message", PyValue.str "CUDA out of memory")]] :=
  ⟨rfl, by decide,
    (c5_fatal_error_stops (⟨true, ⟨8, []⟩, [], []⟩ : FPState ℕ)
      "CUDA out of memory" rfl (by decide)).2.2.1⟩

/-- C7: loading while already Loaded with the same pipeline id and equal
load params (None normalized to the empty dict) returns True and leaves
the state, including status, pipeline instance, id and params, unchanged,
whatever the load implementation does: no unload or reload happens. -/
theorem c7_noop_load {π : Type}
    (loadImpl : String → Option PyDict → Except String π)
    (envDefault : String) (st : PMState π) (pid : Option String)
    (p : Option PyDict)
    (hL : st.status = .loaded) (hid : st.pipelineId = pid)
    (hp : dictEqB (st.loadParams.getD []) (p.getD []) = true) :
    loadPipelineSyncWrapper loadImpl envDefault st pid p = (true, st) := by
  unfold loadPipelineSyncWrapper
  rw [if_pos ⟨hL, hid, hp⟩]

/-- C7 witness: a manager loaded as passthrough with params None receives
load("passthrough", empty dict); the call returns True and changes
nothing, with a load implementation that would fail if invoked. -/
theorem c7_noop_load_witness :
    (⟨.loaded, some (), some "passthrough", none, none⟩ : PMState Unit).status
        = .loaded ∧
    loadPipelineSyncWrapper (fun _ _ => .error "must not be called")
        "longlive" (⟨.loaded, some (), some "passthrough", none, none⟩ :
          PMState Unit) (some "passthrough") (some []) =
      (true, ⟨.loaded, some (), some "passthrough", none, none⟩) :=
  ⟨rfl,
    c7_noop_load (fun _ _ => .error "must not be called") "longlive"
      (⟨.loaded, some (), some "passthrough", none, none⟩ : PMState Unit)
      (some "passthrough") (some []) rfl rfl (by decide)⟩

/-- C10: update_parameters returns False exactly when the parameter queue
is full (the update is dropped); a successful enqueue returns None rather
than True, so the return value is never truthy and truthiness cannot
distinguish success from failure. -/
theorem c10_update_parameters_result (q : PyQueue PyDict) (params : PyDict) :
    ((updateParameters q params).1 = some false ↔
      (0 < q.maxsize ∧ q.maxsize ≤ q.items.length)) ∧
    ((0 < q.maxsize ∧ q.maxsize ≤ q.items.length) →
      updateParameters q params = (some false, q)) ∧
    (¬ (0 < q.maxsize ∧ q.maxsize ≤ q.items.length) →
      updateParameters q params =
        (none, { q with items := q.items ++ [params] })) ∧
    (updateParameters q params).1 ≠ some true ∧
    pyTruthy (updateParameters q params).1 = false := by
  unfold updateParameters putNowait
  by_cases h : 0 < q.maxsize ∧ q.maxsize ≤ q.items.length
  · rw [if_pos h]
    simp [pyTruthy, h]
  · rw [if_neg h]
    simp [pyTruthy, h]

/-- C10 witness: a full parameter queue of capacity 1 drops the update and
returns False. -/
theorem c10_update_parameters_result_witness :
    (0 < (⟨1, [[]]⟩ : PyQueue PyDict).maxsize ∧
      (⟨1, [[]]⟩ : PyQueue PyDict).maxsize ≤
        (⟨1, [[]]⟩ : PyQueue PyDict).items.length) ∧
    updateParameters (⟨1, [[]]⟩ : PyQueue PyDict) [] =
      (some false, ⟨1, [[]]⟩) :=
  ⟨by decide,
    (c10_update_parameters_result (⟨1, [[]]⟩ : PyQueue PyDict) []).2.1
      (by decide)⟩

theorem dictLookup_erase_self (k : String) (d : PyDict) :
    dictLookup k (dictErase k d) = none := by
  induction d with
  | nil => rfl
  | cons kv rest ih =>
    unfold dictErase at ih ⊢
    rw [List.filter_cons]
    by_cases h : kv.1 = k
    · rw [if_neg (by simp [h])]
      exact ih
    · rw [if_pos (by simp [h])]
      unfold dictLookup
      rw [if_neg h]
      exact ih

theorem dictLookup_filter_none {k : String} {d : PyDict}
    (p : String × PyValue → Bool) (h : dictLookup k d = none) :
    dictLookup k (d.filter p) = none := by
  induction d with
  | nil => rfl
  | cons kv rest ih =>
    unfold dictLookup at h
    by_cases hk : kv.1 = k
    · rw [if_pos hk] at h
      exact absurd h (by simp)
    · rw [if_neg hk] at h
      rw [List.filter_cons]
      by_cases hp : p kv
      · rw [if_pos (by simpa using hp)]
        unfold dictLookup
        rw [if_neg hk]
        exact ih h
      · rw [if_neg (by simpa using hp)]
        exact ih h

/-- C1 (code-bug evaluation): the VideoProcessingTrack class binds no
pause attribute, so a data-channel message with a paused key makes the
handler raise AttributeError on session.video_track.pause(...), which its
except clause swallows before update_parameters runs: the message has no
effect.  Moreover every frame recv() emits is popped from the output
queue (an empty queue makes recv wait, not re-emit): there is no
freeze-on-pause path in the egress track. -/
theorem c1_pause_method_missing :
    videoProcessingTrackAttrs.contains "pause" = false ∧
    onDataChannelMessage [("paused", PyValue.bool true)] =
      .errorCaught "AttributeError" ∧
    (∀ (f : ℕ) (rest : List ℕ), recvStep true (f :: rest) = .emit f rest) ∧
    recvStep true ([] : List ℕ) = RecvOutcome.waitRetry := by
  exact ⟨by decide, by decide, fun f rest => rfl, rfl⟩

/-- C2 (code-bug evaluation): an offer received while the manager is not
Loaded creates no session, but the client receives HTTP 500 (with str()
of the inner 400 exception as detail), not HTTP 400: the endpoint's own
except Exception clause catches the HTTPException(400) it raised. -/
theorem c2_offer_rejected_with_500 (π : Type) (st : PMState π)
    (sessions : ℕ) (h : pmIsLoaded st = false) :
    handleWebrtcOffer st sessions =
      (.error ⟨500, "400: Pipeline not loaded. Please load pipeline first."⟩,
        sessions) := by
  have hbody : handleWebrtcOfferBody st sessions =
      (.error ⟨400, "Pipeline not loaded. Please load pipeline first."⟩,
        sessions) := by
    unfold handleWebrtcOfferBody
    rw [h]
    simp
  unfold handleWebrtcOffer
  rw [hbody]
  rfl

/-- C2 witness: a manager in the NotLoaded state rejects a concrete offer
with status 500 and an unchanged session count. -/
theorem c2_offer_rejected_with_500_witness :
    pmIsLoaded (⟨.notLoaded, none, none, none, none⟩ : PMState Unit) =
      false ∧
    handleWebrtcOffer (⟨.notLoaded, none, none, none, none⟩ : PMState Unit)
        0 =
      (.error ⟨500, "400: Pipeline not loaded. Please load pipeline first."⟩,
        0) :=
  ⟨rfl,
    c2_offer_rejected_with_500 Unit
      (⟨.notLoaded, none, none, none, none⟩ : PMState Unit) 0 rfl⟩

/-- C4 (code-bug evaluation): process_chunk pops only paused and
reset_cache from the merged bag before splatting it into the pipeline
call, so the prepare-only keys manage_cache and
prompt_interpolation_method (listed in interface.py's PREPARE_ONLY_PARAMS
as not to be passed to the call) do reach the pipeline's process call,
while paused and reset_cache never do. -/
theorem c4_prepare_only_params_forwarded :
    PREPARE_ONLY_PARAMS.contains "manage_cache" = true ∧
    PREPARE_ONLY_PARAMS.contains "prompt_interpolation_method" = true ∧
    dictContains "manage_cache"
      (processCallKwargs
        [("manage_cache", PyValue.bool true),
         ("prompt_interpolation_method", PyValue.str "linear"),
         ("paused", PyValue.bool false),
         ("reset_cache", PyValue.bool true),
         ("noise_scale", PyValue.int 1)]) = true ∧
    dictContains "prompt_interpolation_method"
      (processCallKwargs
        [("manage_cache", PyValue.bool true),
         ("prompt_interpolation_method", PyValue.str "linear"),
         ("paused", PyValue.bool false),
         ("reset_cache", PyValue.bool true),
         ("noise_scale", PyValue.int 1)]) = true ∧
    (∀ d : PyDict, dictContains "paused" (processCallKwargs d) = false) ∧
    (∀ d : PyDict, dictContains "reset_cache" (processCallKwargs d) = false) := by
  refine ⟨by decide, by decide, by decide, by decide, ?_, ?_⟩
  · intro d
    unfold processCallKwargs dictPop dictContains
    have : dictLookup "paused"
        (dictErase "reset_cache" (dictErase "paused" d)) = none := by
      unfold dictErase
      exact dictLookup_filter_none _
        (by
          have := dictLookup_erase_self "paused" d
          unfold dictErase at this
          exact this)
    rw [this]
    rfl
  · intro d
    unfold processCallKwargs dictPop dictContains
    rw [dictLookup_erase_self]
    rfl

theorem pyInt_eq_floor {q : ℚ} (h : 0 ≤ q) : pyInt q = ⌊q⌋ := by
  unfold pyInt
  rw [if_pos h]

/-- C8 (amended): the first next_timestamp call sets start to now and
returns timestamp 0 with no sleep; every subsequent call advances the
timestamp by int(framePtime * CLOCK_RATE) — Python int() truncation,
which for the nonnegative period is the floor, not round — and the sleep,
when there is one, ends exactly when timestamp / CLOCK_RATE has elapsed
since start (and is skipped exactly when that point has already
passed). -/
theorem c8_media_clock (framePtime now : ℚ) (c : TrackClock)
    (hp : 0 ≤ framePtime) :
    nextTimestamp framePtime now none = (0, 0, ⟨now, 0⟩) ∧
    (nextTimestamp framePtime now (some c)).1 =
      c.timestamp + ⌊framePtime * VIDEO_CLOCK_RATE⌋ ∧
    c.timestamp ≤ (nextTimestamp framePtime now (some c)).1 ∧
    (nextTimestamp framePtime now (some c)).2.2 =
      ⟨c.start, (nextTimestamp framePtime now (some c)).1⟩ ∧
    (0 < (nextTimestamp framePtime now (some c)).2.1 →
      now + (nextTimestamp framePtime now (some c)).2.1 =
        c.start + ((nextTimestamp framePtime now (some c)).1 : ℚ) /
          VIDEO_CLOCK_RATE) ∧
    ((nextTimestamp framePtime now (some c)).2.1 = 0 →
      c.start + ((nextTimestamp framePtime now (some c)).1 : ℚ) /
        VIDEO_CLOCK_RATE ≤ now) := by
  have hq : (0 : ℚ) ≤ framePtime * VIDEO_CLOCK_RATE :=
    mul_nonneg hp (by unfold VIDEO_CLOCK_RATE; norm_num)
  have hfl : (0 : ℤ) ≤ ⌊framePtime * VIDEO_CLOCK_RATE⌋ :=
    Int.floor_nonneg.mpr hq
  have h1 : (nextTimestamp framePtime now (some c)).1 =
      c.timestamp + pyInt (framePtime * VIDEO_CLOCK_RATE) := rfl
  have hw : (nextTimestamp framePtime now (some c)).2.1 =
      (if 0 < c.start +
          ((c.timestamp + pyInt (framePtime * VIDEO_CLOCK_RATE) : ℤ) : ℚ) /
            VIDEO_CLOCK_RATE - now then
        c.start +
          ((c.timestamp + pyInt (framePtime * VIDEO_CLOCK_RATE) : ℤ) : ℚ) /
            VIDEO_CLOCK_RATE - now
      else 0) := rfl
  refine ⟨rfl, by rw [h1, pyInt_eq_floor hq], ?_, rfl, ?_, ?_⟩
  · rw [h1, pyInt_eq_floor hq]
    omega
  · intro hpos
    rw [hw] at hpos ⊢
    by_cases hc : 0 < c.start +
        ((c.timestamp + pyInt (framePtime * VIDEO_CLOCK_RATE) : ℤ) : ℚ) /
          VIDEO_CLOCK_RATE - now
    · rw [if_pos hc]
      rw [h1]
      ring
    · rw [if_neg hc] at hpos
      exact absurd hpos (lt_irrefl 0)
  · intro hzero
    rw [hw] at hzero
    by_cases hc : 0 < c.start +
        ((c.timestamp + pyInt (framePtime * VIDEO_CLOCK_RATE) : ℤ) : ℚ) /
          VIDEO_CLOCK_RATE - now
    · rw [if_pos hc] at hzero
      rw [hzero] at hc
      exact absurd hc (lt_irrefl 0)
    · rw [h1]
      push_neg at hc
      linarith

/-- C8 witness: the amended theorem applied at a concrete period and a
concrete clock state. -/
theorem c8_media_clock_witness :
    (0 : ℚ) ≤ 1 ∧
    (nextTimestamp 1 0 (some ⟨0, 0⟩)).1 =
      (⟨0, 0⟩ : TrackClock).timestamp + ⌊(1 : ℚ) * VIDEO_CLOCK_RATE⌋ :=
  ⟨zero_le_one, (c8_media_clock 1 0 ⟨0, 0⟩ zero_le_one).2.1⟩

/-- C8 counterexample: with fps = 32 the period times the clock rate is
exactly 2812.5 (a value the source's floating point also computes
exactly); int() truncation advances a fresh timestamp by 2812, while the
claimed round(period * CLOCK_RATE) gives 2813. -/
theorem c8_counterexample :
    (nextTimestamp (1/32) 1 (some ⟨0, 0⟩)).1 = 2812 ∧
    specPlainRound ((1/32 : ℚ) * VIDEO_CLOCK_RATE) = 2813 ∧
    (nextTimestamp (1/32) 1 (some ⟨0, 0⟩)).1 ≠
      (⟨0, 0⟩ : TrackClock).timestamp +
        specPlainRound ((1/32 : ℚ) * VIDEO_CLOCK_RATE) := by
  have h0 : pyInt ((1/32 : ℚ) * VIDEO_CLOCK_RATE) = 2812 := by
    unfold pyInt VIDEO_CLOCK_RATE
    norm_num
  have h1 : (nextTimestamp (1/32) 1 (some ⟨0, 0⟩)).1 = 2812 := by
    have : (nextTimestamp (1/32) 1 (some ⟨0, 0⟩)).1 =
        0 + pyInt ((1/32 : ℚ) * VIDEO_CLOCK_RATE) := rfl
    rw [this, h0]
    decide
  have h2 : specPlainRound ((1/32 : ℚ) * VIDEO_CLOCK_RATE) = 2813 := by
    unfold specPlainRound VIDEO_CLOCK_RATE
    norm_num
  refine ⟨h1, h2, ?_⟩
  rw [h1, h2]
  decide

theorem dequeAppendMax2_length (xs : List ℚ) (x : ℚ) :
    (dequeAppendMax2 xs x).length = min (xs.length + 1) 2 := by
  unfold dequeAppendMax2
  simp only [List.length_drop, List.length_append, List.length_cons,
    List.length_nil]
  omega

theorem dequeAppendMax2_mem {xs : List ℚ} {x y : ℚ}
    (h : y ∈ dequeAppendMax2 xs x) : y ∈ xs ∨ y = x := by
  unfold dequeAppendMax2 at h
  have hy : y ∈ xs ++ [x] := List.drop_subset _ _ h
  rcases List.mem_append.mp hy with h1 | h1
  · exact Or.inl h1
  · exact Or.inr (List.mem_singleton.mp h1)

theorem dequeAppendMax2_ne_nil (xs : List ℚ) (x : ℚ) :
    dequeAppendMax2 xs x ≠ [] := by
  intro hnil
  have := dequeAppendMax2_length xs x
  rw [hnil] at this
  simp at this
  omega

theorem calculatePipelineFps_preserves (st : FpsTracker)
    (startTime t1 t2 : ℚ) (n : ℤ)
    (h1 : MIN_FPS ≤ st.currentPipelineFps)
    (h2 : st.currentPipelineFps ≤ MAX_FPS)
    (h3 : st.samples = [] → st.currentPipelineFps = DEFAULT_FPS)
    (h4 : st.samples.length ≤ 2)
    (h5 : ∀ x ∈ st.samples, 0 < x) :
    MIN_FPS ≤ (calculatePipelineFps st startTime t1 t2 n).currentPipelineFps ∧
    (calculatePipelineFps st startTime t1 t2 n).currentPipelineFps ≤
      MAX_FPS ∧
    ((calculatePipelineFps st startTime t1 t2 n).samples = [] →
      (calculatePipelineFps st startTime t1 t2 n).currentPipelineFps =
        DEFAULT_FPS) ∧
    (calculatePipelineFps st startTime t1 t2 n).samples.length ≤ 2 ∧
    (∀ x ∈ (calculatePipelineFps st startTime t1 t2 n).samples, 0 < x) := by
  by_cases hearly : t1 - startTime ≤ 0 ∨ n ≤ 0
  · have heq : calculatePipelineFps st startTime t1 t2 n = st := by
      unfold calculatePipelineFps
      rw [if_pos hearly]
    rw [heq]
    exact ⟨h1, h2, h3, h4, h5⟩
  · push_neg at hearly
    have hpt : 0 < t1 - startTime := hearly.1
    have hn : 0 < n := hearly.2
    have hnq : (0 : ℚ) < (n : ℚ) := by exact_mod_cast hn
    have htpf : 0 < (t1 - startTime) / (n : ℚ) := div_pos hpt hnq
    have hs2len := dequeAppendMax2_length st.samples
      ((t1 - startTime) / (n : ℚ))
    have hs2pos : ∀ x ∈ dequeAppendMax2 st.samples
        ((t1 - startTime) / (n : ℚ)), 0 < x := by
      intro x hx
      rcases dequeAppendMax2_mem hx with hmem | hmem
      · exact h5 x hmem
      · rw [hmem]
        exact htpf
    have hs2ne := dequeAppendMax2_ne_nil st.samples
      ((t1 - startTime) / (n : ℚ))
    have hearly2 : ¬ (t1 - startTime ≤ 0 ∨ n ≤ 0) := by
      push_neg
      exact hearly
    by_cases hpub : 1/2 ≤ t2 - st.lastFpsUpdate
    · by_cases hlen : 1 ≤ (dequeAppendMax2 st.samples
          ((t1 - startTime) / (n : ℚ))).length
      · have heq : calculatePipelineFps st startTime t1 t2 n =
            ⟨dequeAppendMax2 st.samples ((t1 - startTime) / (n : ℚ)), t2,
              max MIN_FPS (min MAX_FPS
                (if 0 < (dequeAppendMax2 st.samples
                      ((t1 - startTime) / (n : ℚ))).sum /
                    ((dequeAppendMax2 st.samples
                      ((t1 - startTime) / (n : ℚ))).length : ℚ) then
                  1 / ((dequeAppendMax2 st.samples
                      ((t1 - startTime) / (n : ℚ))).sum /
                    ((dequeAppendMax2 st.samples
                      ((t1 - startTime) / (n : ℚ))).length : ℚ))
                else st.currentPipelineFps))⟩ := by
          unfold calculatePipelineFps
          rw [if_neg hearly2, if_pos hpub, if_pos hlen]
        rw [heq]
        refine ⟨le_max_left _ _, ?_, ?_, ?_, hs2pos⟩
        · exact max_le (by unfold MIN_FPS MAX_FPS; norm_num)
            (min_le_left _ _)
        · intro habs
          exact absurd habs hs2ne
        · show (dequeAppendMax2 st.samples
            ((t1 - startTime) / (n : ℚ))).length ≤ 2
          omega
      · have heq : calculatePipelineFps st startTime t1 t2 n =
            ⟨dequeAppendMax2 st.samples ((t1 - startTime) / (n : ℚ)), t2,
              st.currentPipelineFps⟩ := by
          unfold calculatePipelineFps
          rw [if_neg hearly2, if_pos hpub, if_neg hlen]
        rw [heq]
        refine ⟨h1, h2, fun habs => absurd habs hs2ne, ?_, hs2pos⟩
        show (dequeAppendMax2 st.samples
          ((t1 - startTime) / (n : ℚ))).length ≤ 2
        omega
    · have heq : calculatePipelineFps st startTime t1 t2 n =
          { st with samples :=
              dequeAppendMax2 st.samples ((t1 - startTime) / (n : ℚ)) } := by
        unfold calculatePipelineFps
        rw [if_neg hearly2, if_neg hpub]
      rw [heq]
      refine ⟨h1, h2, fun habs => absurd habs hs2ne, ?_, hs2pos⟩
      show (dequeAppendMax2 st.samples
        ((t1 - startTime) / (n : ℚ))).length ≤ 2
      omega

theorem calculatePipelineFps_update_eq (st : FpsTracker)
    (startTime t1 t2 : ℚ) (n : ℤ)
    (h5 : ∀ x ∈ st.samples, 0 < x) :
    (calculatePipelineFps st startTime t1 t2 n).currentPipelineFps =
        st.currentPipelineFps ∨
    (calculatePipelineFps st startTime t1 t2 n).currentPipelineFps =
      max MIN_FPS (min MAX_FPS
        (1 / ((calculatePipelineFps st startTime t1 t2 n).samples.sum /
          ((calculatePipelineFps st startTime t1 t2 n).samples.length :
            ℚ)))) := by
  by_cases hearly : t1 - startTime ≤ 0 ∨ n ≤ 0
  · left
    unfold calculatePipelineFps
    rw [if_pos hearly]
  · push_neg at hearly
    have hpt : 0 < t1 - startTime := hearly.1
    have hn : 0 < n := hearly.2
    have hnq : (0 : ℚ) < (n : ℚ) := by exact_mod_cast hn
    have htpf : 0 < (t1 - startTime) / (n : ℚ) := div_pos hpt hnq
    have hearly2 : ¬ (t1 - startTime ≤ 0 ∨ n ≤ 0) := by
      push_neg
      exact hearly
    have hs2pos : ∀ x ∈ dequeAppendMax2 st.samples
        ((t1 - startTime) / (n : ℚ)), 0 < x := by
      intro x hx
      rcases dequeAppendMax2_mem hx with hmem | hmem
      · exact h5 x hmem
      · rw [hmem]
        exact htpf
    have hs2ne := dequeAppendMax2_ne_nil st.samples
      ((t1 - startTime) / (n : ℚ))
    have hsum : 0 < (dequeAppendMax2 st.samples
        ((t1 - startTime) / (n : ℚ))).sum :=
      List.sum_pos _ hs2pos hs2ne
    have hlenpos : 0 < ((dequeAppendMax2 st.samples
        ((t1 - startTime) / (n : ℚ))).length : ℚ) := by
      have := List.length_pos.mpr hs2ne
      exact_mod_cast this
    have havg : 0 < (dequeAppendMax2 st.samples
        ((t1 - startTime) / (n : ℚ))).sum /
        ((dequeAppendMax2 st.samples
          ((t1 - startTime) / (n : ℚ))).length : ℚ) :=
      div_pos hsum hlenpos
    by_cases hpub : 1/2 ≤ t2 - st.lastFpsUpdate
    · by_cases hlen : 1 ≤ (dequeAppendMax2 st.samples
          ((t1 - startTime) / (n : ℚ))).length
      · right
        have heq : calculatePipelineFps st startTime t1 t2 n =
            ⟨dequeAppendMax2 st.samples ((t1 - startTime) / (n : ℚ)), t2,
              max MIN_FPS (min MAX_FPS
                (1 / ((dequeAppendMax2 st.samples
                    ((t1 - startTime) / (n : ℚ))).sum /
                  ((dequeAppendMax2 st.samples
                    ((t1 - startTime) / (n : ℚ))).length : ℚ))))⟩ := by
          unfold calculatePipelineFps
          rw [if_neg hearly2, if_pos hpub, if_pos hlen, if_pos havg]
        rw [heq]
      · left
        have heq : calculatePipelineFps st startTime t1 t2 n =
            ⟨dequeAppendMax2 st.samples ((t1 - startTime) / (n : ℚ)), t2,
              st.currentPipelineFps⟩ := by
          unfold calculatePipelineFps
          rw [if_neg hearly2, if_pos hpub, if_neg hlen]
        rw [heq]
    · left
      have heq : calculatePipelineFps st startTime t1 t2 n =
          { st with samples :=
              dequeAppendMax2 st.samples ((t1 - startTime) / (n : ℚ)) } := by
        unfold calculatePipelineFps
        rw [if_neg hearly2, if_neg hpub]
      rw [heq]

/-- C9: the published FPS lies in [MIN_FPS, MAX_FPS] in every reachable
tracker state, equals the default 30 whenever no sample has been
recorded, the tracker stores at most two (positive) samples, and any call
that changes the published value sets it to 1 / (mean of the stored
samples) clamped to [MIN_FPS, MAX_FPS]. -/
theorem c9_fps_clamp (t0 : ℚ) (events : List FpsSample) :
    (MIN_FPS ≤ getCurrentPipelineFps (runFpsTracker t0 events) ∧
      getCurrentPipelineFps (runFpsTracker t0 events) ≤ MAX_FPS) ∧
    ((runFpsTracker t0 events).samples = [] →
      getCurrentPipelineFps (runFpsTracker t0 events) = DEFAULT_FPS) ∧
    (runFpsTracker t0 events).samples.length ≤ 2 ∧
    (∀ x ∈ (runFpsTracker t0 events).samples, 0 < x) ∧
    (∀ (st : FpsTracker) (a b c : ℚ) (n : ℤ),
      (∀ x ∈ st.samples, 0 < x) →
      (calculatePipelineFps st a b c n).currentPipelineFps =
          st.currentPipelineFps ∨
      (calculatePipelineFps st a b c n).currentPipelineFps =
        max MIN_FPS (min MAX_FPS
          (1 / ((calculatePipelineFps st a b c n).samples.sum /
            ((calculatePipelineFps st a b c n).samples.length : ℚ))))) := by
  have main : ∀ (evs : List FpsSample) (st : FpsTracker),
      MIN_FPS ≤ st.currentPipelineFps →
      st.currentPipelineFps ≤ MAX_FPS →
      (st.samples = [] → st.currentPipelineFps = DEFAULT_FPS) →
      st.samples.length ≤ 2 →
      (∀ x ∈ st.samples, 0 < x) →
      (MIN_FPS ≤ (evs.foldl
          (fun s e => calculatePipelineFps s e.startTime e.t1 e.t2
            e.numFrames) st).currentPipelineFps ∧
        (evs.foldl (fun s e => calculatePipelineFps s e.startTime e.t1 e.t2
          e.numFrames) st).currentPipelineFps ≤ MAX_FPS) ∧
      ((evs.foldl (fun s e => calculatePipelineFps s e.startTime e.t1 e.t2
          e.numFrames) st).samples = [] →
        (evs.foldl (fun s e => calculatePipelineFps s e.startTime e.t1 e.t2
          e.numFrames) st).currentPipelineFps = DEFAULT_FPS) ∧
      (evs.foldl (fun s e => calculatePipelineFps s e.startTime e.t1 e.t2
        e.numFrames) st).samples.length ≤ 2 ∧
      (∀ x ∈ (evs.foldl (fun s e => calculatePipelineFps s e.startTime e.t1
        e.t2 e.numFrames) st).samples, 0 < x) := by
    intro evs
    induction evs with
    | nil =>
      intro st h1 h2 h3 h4 h5
      exact ⟨⟨h1, h2⟩, h3, h4, h5⟩
    | cons e rest ih =>
      intro st h1 h2 h3 h4 h5
      rw [List.foldl_cons]
      obtain ⟨g1, g2, g3, g4, g5⟩ :=
        calculatePipelineFps_preserves st e.startTime e.t1 e.t2 e.numFrames
          h1 h2 h3 h4 h5
      exact ih _ g1 g2 g3 g4 g5
  have hinit1 : MIN_FPS ≤ (initFpsTracker t0).currentPipelineFps := by
    unfold initFpsTracker MIN_FPS DEFAULT_FPS
    norm_num
  have hinit2 : (initFpsTracker t0).currentPipelineFps ≤ MAX_FPS := by
    unfold initFpsTracker MAX_FPS DEFAULT_FPS
    norm_num
  obtain ⟨⟨m1, m2⟩, m3, m4, m5⟩ := main events (initFpsTracker t0) hinit1
    hinit2 (fun _ => rfl) (by simp [initFpsTracker]) (by simp [initFpsTracker])
  exact ⟨⟨m1, m2⟩, m3, m4, m5,
    fun st a b c n h => calculatePipelineFps_update_eq st a b c n h⟩

/-- C9 witness: the clamp bounds at the initial tracker state. -/
theorem c9_fps_clamp_witness :
    MIN_FPS ≤ getCurrentPipelineFps (runFpsTracker 0 []) ∧
      getCurrentPipelineFps (runFpsTracker 0 []) ≤ MAX_FPS :=
  (c9_fps_clamp 0 []).1

end Scope
